import Mathlib

/-!
Verification development for the sheinverse-women catalog monitor
(`src/sheinverse_women.py`).

The script polls a paginated product endpoint, keeps a persisted state
(`seen_products`, `restock_alerted`, `last_total_results`) and sends
notifications.  Below, the body of one iteration of `main_loop`
(lines 139-192 of the source) is embedded as pure functions:

* `Product` / `extract_product_key` embed the product records and the key
  extraction `str(prod.get("code", ""))` (a missing code yields `""`).
* `Info` embeds one `seen_products` entry: `first_seen`, `last_seen` and the
  optional `missing_since` field.
* `State` embeds the persisted state dictionary.
* Python dictionaries are embedded as association lists with `lookup` /
  `setk` (assignment updates the entry in place or appends a fresh one, as
  dict assignment does).
* `time.time()` is embedded as a single per-cycle timestamp `now : Nat`.
* A dispatched notification is embedded as an `Event`; `Event.summary`
  is the "STOCK UPDATE" message of `summary_alert_message` and
  `Event.newItem` the "NEW" product message.  `Event.restock` is the
  `Restock` event class named by the specification's Dispatcher contract;
  it is part of the event vocabulary so that claims about restock
  notifications can be stated, and the embedded reconciler produces it
  exactly where the source dispatches a restock notification (the source
  dispatches none: lines 178-184 only set the `restock_alerted` flag).
* `cycle` embeds lines 148-190 (total check, first product loop, second
  bookkeeping loop); `pollStep` embeds one loop iteration including the
  `try/except` around the fetch (the boolean records whether `save_state`
  was reached); `run` folds `pollStep` over a list of cycle inputs.
* `fetch_all_products` embeds the pagination walk of lines 74-93 over an
  abstract page fetcher `f : Nat → Option Page` (an exception raised by
  `fetch_page` is `none`).
-/

namespace Sheinverse

/-- A catalog product record; only the extracted key matters for tracking.
The `code` field embeds `str(prod.get("code", ""))`: a missing code is `""`. -/
structure Product where
  code : String
deriving DecidableEq, Repr

/-- Embeds `extract_product_key` (source lines 96-101). -/
def extract_product_key (p : Product) : String :=
  p.code

/-- One `seen_products` entry (source lines 166, 176-184). -/
structure Info where
  first_seen : Nat
  last_seen : Nat
  missing_since : Option Nat
deriving DecidableEq, Repr

/-- Association lists with string keys embed Python dicts. -/
abbrev AList (α : Type) := List (String × α)

/-- Dict read: first entry with the given key. -/
def lookup {α : Type} : AList α → String → Option α
  | [], _ => none
  | (k', v) :: rest, k => if k' = k then some v else lookup rest k

/-- Dict assignment: replace the entry in place, or append a fresh one. -/
def setk {α : Type} : AList α → String → α → AList α
  | [], k, v => [(k, v)]
  | (k', v') :: rest, k, v =>
      if k' = k then (k, v) :: rest else (k', v') :: setk rest k v

/-- Embeds `restock_alerted.get(key)` (falsy when absent). -/
def getFlag (ra : AList Bool) (k : String) : Bool :=
  (lookup ra k).getD false

/-- The persisted state (source lines 41-46, 132-135, 187-189). -/
structure State where
  seen_products : AList Info
  restock_alerted : AList Bool
  last_total_results : Int
deriving DecidableEq, Repr

/-- The state `load_state` returns when no state file exists. -/
def initState : State :=
  { seen_products := [], restock_alerted := [], last_total_results := 0 }

/-- A dispatched notification. `summary` carries the current total and the
increment, as `summary_alert_message(current_total, new_count)` does;
`newItem` is the "NEW" product message keyed by identity; `restock` is the
Restock event class of the specification (never produced by the source:
lines 178-184 set the flag without dispatching). -/
inductive Event where
  | summary (total delta : Int)
  | newItem (key : String)
  | restock (key : String)
deriving DecidableEq, Repr

/-- Recognizes the total ("STOCK UPDATE") event. -/
def isTotal : Event → Bool
  | .summary _ _ => true
  | _ => false

/-- Recognizes a NewItem event. -/
def isNew : Event → Bool
  | .newItem _ => true
  | _ => false

/-- Embeds the summary-alert block, source lines 149-154: the emitted events
and the updated `last_total_results`. -/
def totalCheck (t last : Int) : List Event × Int :=
  if t > last then ([Event.summary t (t - last)], t) else ([], last)

/-- Embeds the first product loop, source lines 157-169: builds
`current_codes`, inserts never-seen products and emits NEW events. -/
def firstLoop (now : Nat) :
    List Product → List String → AList Info → List Event →
      List String × AList Info × List Event
  | [], codes, seen, evs => (codes, seen, evs)
  | p :: rest, codes, seen, evs =>
      let key := extract_product_key p
      if key = "" then
        firstLoop now rest codes seen evs
      else if (lookup seen key).isSome then
        firstLoop now rest (codes ++ [key]) seen evs
      else
        firstLoop now rest (codes ++ [key])
          (setk seen key { first_seen := now, last_seen := now, missing_since := none })
          (evs ++ [Event.newItem key])

/-- Embeds the second bookkeeping loop, source lines 172-184: an absent
entry gains `missing_since` (if unset); a present entry keeps its fields,
may set the `restock_alerted` flag, and gets `last_seen = now`. -/
def secondLoop (now : Nat) (codes : List String) :
    AList Info → AList Bool → AList Info × AList Bool
  | [], ra => ([], ra)
  | (k, info) :: rest, ra =>
      if codes.contains k then
        let ra2 := if info.missing_since.isSome && !(getFlag ra k) then setk ra k true else ra
        let r := secondLoop now codes rest ra2
        ((k, { info with last_seen := now }) :: r.1, r.2)
      else
        let info2 :=
          if info.missing_since.isSome then info
          else { info with missing_since := some now }
        let r := secondLoop now codes rest ra
        ((k, info2) :: r.1, r.2)

/-- One successful cycle of `main_loop` (source lines 148-190): the next
state and the dispatched events, in dispatch order (summary first, then NEW
messages in snapshot order). -/
def cycle (now : Nat) (products : List Product) (t : Int) (st : State) :
    State × List Event :=
  let tc := totalCheck t st.last_total_results
  let fl := firstLoop now products [] st.seen_products []
  let sl := secondLoop now fl.1 fl.2.1 st.restock_alerted
  ({ seen_products := sl.1, restock_alerted := sl.2,
     last_total_results := tc.2 }, tc.1 ++ fl.2.2)

/-- One iteration of the poll loop, source lines 139-192.  The fetch result
is `none` when `fetch_all_products` raises; the boolean records whether the
cycle reached `save_state`. -/
def pollStep (now : Nat) (fetch : Option (List Product × Int)) (st : State) :
    State × List Event × Bool :=
  match fetch with
  | none => (st, [], false)
  | some (ps, t) =>
      let r := cycle now ps t st
      (r.1, r.2, true)

/-- One tick's input: the cycle timestamp and the fetch outcome. -/
abbrev CycleInput := Nat × Option (List Product × Int)

/-- A run of the poll loop over a finite list of ticks: final state and all
events dispatched, in order. -/
def run (st : State) : List CycleInput → State × List Event
  | [] => (st, [])
  | c :: rest =>
      let r := pollStep c.1 c.2 st
      let r2 := run r.1 rest
      (r2.1, r.2.1 ++ r2.2)

/-- One page of the listing: its products, and the pagination fields read
from page 0 (source lines 78-82). -/
structure Page where
  products : List Product
  totalResults : Int
  totalPages : Nat
deriving DecidableEq, Repr

/-- Embeds the page walk of source lines 85-91 starting at `page` with `n`
pages left: a failing page stops the walk (`break`). -/
def fetchPagesFrom (f : Nat → Option Page) : Nat → Nat → List Product
  | _, 0 => []
  | page, n + 1 =>
      match f page with
      | none => []
      | some d => d.products ++ fetchPagesFrom f (page + 1) n

/-- Embeds `fetch_all_products` (source lines 74-93): page 0 failing fails
the fetch; later pages are walked with `fetchPagesFrom`. -/
def fetch_all_products (f : Nat → Option Page) : Option (List Product × Int) :=
  match f 0 with
  | none => none
  | some first =>
      some (first.products ++ fetchPagesFrom f 1 (first.totalPages - 1),
        first.totalResults)

/-- The non-empty extracted keys of a snapshot, in snapshot order. -/
def snapshotKeys (ps : List Product) : List String :=
  (ps.map extract_product_key).filter (fun k => !(k == ""))

/-- The identities for which the first loop creates an entry and emits NEW,
in snapshot order (the specification's step 3 traversal). -/
def newOnes (now : Nat) (seen : AList Info) : List Product → List String
  | [] => []
  | p :: rest =>
      let k := extract_product_key p
      if k = "" then newOnes now seen rest
      else if (lookup seen k).isSome then newOnes now seen rest
      else k :: newOnes now
        (setk seen k { first_seen := now, last_seen := now, missing_since := none }) rest

/-- Whether an identity appears, with a non-empty key, in the snapshot of
some successful tick of the input list. -/
def observed (k : String) : List CycleInput → Bool
  | [] => false
  | c :: rest =>
      (match c.2 with
       | some (ps, _) => !(k == "") && (ps.map extract_product_key).contains k
       | none => false) || observed k rest

/-! ### Association-list lemmas -/

@[simp]
theorem lookup_setk_self {α : Type} (l : AList α) (k : String) (v : α) :
    lookup (setk l k v) k = some v := by
  induction l with
  | nil => simp [setk, lookup]
  | cons e rest ih =>
      obtain ⟨k', v'⟩ := e
      by_cases h : k' = k <;> simp [setk, lookup, h, ih]

theorem lookup_setk_ne {α : Type} (l : AList α) {k k' : String} (v : α)
    (h : k' ≠ k) : lookup (setk l k v) k' = lookup l k' := by
  induction l with
  | nil => simp [setk, lookup, Ne.symm h]
  | cons e rest ih =>
      obtain ⟨k'', v''⟩ := e
      by_cases h2 : k'' = k
      · subst h2
        simp [setk, lookup, Ne.symm h]
      · simp only [setk, if_neg h2, lookup]
        by_cases h3 : k'' = k' <;> simp [h3, ih]

theorem getFlag_setk_true (ra : AList Bool) (k k' : String) :
    getFlag (setk ra k true) k' = (k' == k || getFlag ra k') := by
  by_cases h : k' = k
  · subst h; simp [getFlag]
  · simp [getFlag, lookup_setk_ne _ _ h, h]

theorem contains_iff_mem (l : List String) (k : String) :
    l.contains k = true ↔ k ∈ l := by
  induction l with
  | nil => simp
  | cons a rest ih => simp [List.contains, ih]

/-! ### First-loop characterization -/

theorem firstLoop_cons (now : Nat) (p : Product) (rest : List Product)
    (codes : List String) (seen : AList Info) (evs : List Event) :
    firstLoop now (p :: rest) codes seen evs =
      (if extract_product_key p = "" then firstLoop now rest codes seen evs
       else if (lookup seen (extract_product_key p)).isSome then
         firstLoop now rest (codes ++ [extract_product_key p]) seen evs
       else
         firstLoop now rest (codes ++ [extract_product_key p])
           (setk seen (extract_product_key p)
             { first_seen := now, last_seen := now, missing_since := none })
           (evs ++ [Event.newItem (extract_product_key p)])) := rfl

theorem firstLoop_events (now : Nat) (ps : List Product) :
    ∀ codes seen evs,
      (firstLoop now ps codes seen evs).2.2 =
        evs ++ (newOnes now seen ps).map Event.newItem := by
  induction ps with
  | nil => intro codes seen evs; simp [firstLoop, newOnes]
  | cons p rest ih =>
      intro codes seen evs
      by_cases h1 : extract_product_key p = ""
      · simp [firstLoop, newOnes, h1, ih]
      · by_cases h2 : (lookup seen (extract_product_key p)).isSome
        · simp [firstLoop, newOnes, h1, h2, ih]
        · simp [firstLoop, newOnes, h1, h2, ih]

theorem firstLoop_codes (now : Nat) (ps : List Product) :
    ∀ codes seen evs k,
      k ∈ (firstLoop now ps codes seen evs).1 ↔
        k ∈ codes ∨ (k ≠ "" ∧ k ∈ ps.map extract_product_key) := by
  induction ps with
  | nil => intro codes seen evs k; simp [firstLoop]
  | cons p rest ih =>
      intro codes seen evs k
      rw [firstLoop_cons]
      by_cases h1 : extract_product_key p = ""
      · rw [if_pos h1, ih]
        simp only [List.map_cons, List.mem_cons, h1]
        constructor
        · rintro (h | ⟨hk, hm⟩)
          · exact Or.inl h
          · exact Or.inr ⟨hk, Or.inr hm⟩
        · rintro (h | ⟨hk, hm | hm⟩)
          · exact Or.inl h
          · exact absurd hm hk
          · exact Or.inr ⟨hk, hm⟩
      · rw [if_neg h1]
        have hmain : ∀ (seen' : AList Info) (evs' : List Event),
            k ∈ (firstLoop now rest (codes ++ [extract_product_key p]) seen' evs').1 ↔
              k ∈ codes ∨ (k ≠ "" ∧ k ∈ (p :: rest).map extract_product_key) := by
          intro seen' evs'
          rw [ih]
          simp only [List.mem_append, List.mem_singleton, List.map_cons, List.mem_cons]
          constructor
          · rintro ((h | (h | h)) | ⟨hk, hm⟩)
            · exact Or.inl h
            · subst h; exact Or.inr ⟨h1, Or.inl rfl⟩
            · exact absurd h (List.not_mem_nil _)
            · exact Or.inr ⟨hk, Or.inr hm⟩
          · rintro (h | ⟨hk, hm | hm⟩)
            · exact Or.inl (Or.inl h)
            · exact Or.inl (Or.inr (Or.inl hm))
            · exact Or.inr ⟨hk, hm⟩
        by_cases h2 : (lookup seen (extract_product_key p)).isSome
        · rw [if_pos h2]; exact hmain _ _
        · rw [if_neg h2]; exact hmain _ _

theorem firstLoop_seen_preserved (now : Nat) (ps : List Product) :
    ∀ codes seen evs k i, lookup seen k = some i →
      lookup (firstLoop now ps codes seen evs).2.1 k = some i := by
  induction ps with
  | nil => intro codes seen evs k i h; simpa [firstLoop] using h
  | cons p rest ih =>
      intro codes seen evs k i h
      rw [firstLoop_cons]
      by_cases h1 : extract_product_key p = ""
      · rw [if_pos h1]; exact ih _ _ _ _ _ h
      · rw [if_neg h1]
        by_cases h2 : (lookup seen (extract_product_key p)).isSome
        · rw [if_pos h2]; exact ih _ _ _ _ _ h
        · rw [if_neg h2]
          have hne : k ≠ extract_product_key p := by
            intro hkp
            rw [← hkp, h] at h2
            simp at h2
          exact ih _ _ _ _ _ (by rw [lookup_setk_ne _ _ hne]; exact h)

theorem firstLoop_seen_new (now : Nat) (ps : List Product) :
    ∀ codes seen evs k, lookup seen k = none →
      lookup (firstLoop now ps codes seen evs).2.1 k =
        (if k ≠ "" ∧ k ∈ ps.map extract_product_key then
          some { first_seen := now, last_seen := now, missing_since := none }
        else none) := by
  induction ps with
  | nil => intro codes seen evs k h; simpa [firstLoop] using h
  | cons p rest ih =>
      intro codes seen evs k h
      rw [firstLoop_cons]
      by_cases h1 : extract_product_key p = ""
      · rw [if_pos h1, ih _ _ _ _ h]
        have hiff : (k ≠ "" ∧ k ∈ rest.map extract_product_key) ↔
            (k ≠ "" ∧ k ∈ (p :: rest).map extract_product_key) := by
          simp only [List.map_cons, List.mem_cons, h1]
          constructor
          · rintro ⟨hk1, hm⟩; exact ⟨hk1, Or.inr hm⟩
          · rintro ⟨hk1, hm | hm⟩
            · exact absurd hm hk1
            · exact ⟨hk1, hm⟩
        exact if_congr hiff rfl rfl
      · rw [if_neg h1]
        by_cases h2 : (lookup seen (extract_product_key p)).isSome
        · have hne : k ≠ extract_product_key p := by
            intro hkp
            rw [← hkp, h] at h2
            simp at h2
          rw [if_pos h2, ih _ _ _ _ h]
          have hiff : (k ≠ "" ∧ k ∈ rest.map extract_product_key) ↔
              (k ≠ "" ∧ k ∈ (p :: rest).map extract_product_key) := by
            simp only [List.map_cons, List.mem_cons]
            constructor
            · rintro ⟨hk1, hm⟩; exact ⟨hk1, Or.inr hm⟩
            · rintro ⟨hk1, hm | hm⟩
              · exact absurd hm hne
              · exact ⟨hk1, hm⟩
          exact if_congr hiff rfl rfl
        · rw [if_neg h2]
          by_cases hkp : k = extract_product_key p
          · have hl : lookup (setk seen (extract_product_key p)
                { first_seen := now, last_seen := now, missing_since := none }) k =
                some { first_seen := now, last_seen := now, missing_since := none } := by
              rw [hkp]; exact lookup_setk_self _ _ _
            rw [firstLoop_seen_preserved now rest _ _ _ _ _ hl, if_pos]
            refine ⟨by rw [hkp]; exact h1, ?_⟩
            rw [hkp, List.map_cons]
            exact List.mem_cons_self _ _
          · rw [ih _ _ _ _ (by rw [lookup_setk_ne _ _ hkp]; exact h)]
            have hiff : (k ≠ "" ∧ k ∈ rest.map extract_product_key) ↔
                (k ≠ "" ∧ k ∈ (p :: rest).map extract_product_key) := by
              simp only [List.map_cons, List.mem_cons]
              constructor
              · rintro ⟨hk1, hm⟩; exact ⟨hk1, Or.inr hm⟩
              · rintro ⟨hk1, hm | hm⟩
                · exact absurd hm hkp
                · exact ⟨hk1, hm⟩
            exact if_congr hiff rfl rfl

theorem newOnes_cons (now : Nat) (seen : AList Info) (p : Product)
    (rest : List Product) :
    newOnes now seen (p :: rest) =
      (if extract_product_key p = "" then newOnes now seen rest
       else if (lookup seen (extract_product_key p)).isSome then newOnes now seen rest
       else extract_product_key p :: newOnes now
         (setk seen (extract_product_key p)
           { first_seen := now, last_seen := now, missing_since := none }) rest) := rfl

theorem newOnes_mem (now : Nat) (ps : List Product) :
    ∀ seen k, k ∈ newOnes now seen ps ↔
      k ≠ "" ∧ lookup seen k = none ∧ k ∈ ps.map extract_product_key := by
  induction ps with
  | nil => intro seen k; simp [newOnes]
  | cons p rest ih =>
      intro seen k
      rw [newOnes_cons]
      by_cases h1 : extract_product_key p = ""
      · rw [if_pos h1, ih]
        simp only [List.map_cons, List.mem_cons, h1]
        constructor
        · rintro ⟨hk, hl, hm⟩
          exact ⟨hk, hl, Or.inr hm⟩
        · rintro ⟨hk, hl, hm | hm⟩
          · exact absurd hm hk
          · exact ⟨hk, hl, hm⟩
      · rw [if_neg h1]
        by_cases h2 : (lookup seen (extract_product_key p)).isSome
        · rw [if_pos h2, ih]
          simp only [List.map_cons, List.mem_cons]
          constructor
          · rintro ⟨hk, hl, hm⟩
            exact ⟨hk, hl, Or.inr hm⟩
          · rintro ⟨hk, hl, hm | hm⟩
            · rw [← hm, hl] at h2; simp at h2
            · exact ⟨hk, hl, hm⟩
        · rw [if_neg h2]
          simp only [List.mem_cons, ih, List.map_cons]
          constructor
          · rintro (hm | ⟨hk, hl, hm⟩)
            · subst hm
              exact ⟨h1, Option.not_isSome_iff_eq_none.mp h2, Or.inl rfl⟩
            · refine ⟨hk, ?_, Or.inr hm⟩
              have hne : k ≠ extract_product_key p := by
                intro hkp
                rw [hkp, lookup_setk_self] at hl
                exact Option.noConfusion hl
              rw [lookup_setk_ne _ _ hne] at hl
              exact hl
          · rintro ⟨hk, hl, hm | hm⟩
            · exact Or.inl hm
            · by_cases hkp : k = extract_product_key p
              · exact Or.inl hkp
              · exact Or.inr ⟨hk, by rw [lookup_setk_ne _ _ hkp]; exact hl, hm⟩

theorem newOnes_nodup (now : Nat) (ps : List Product) :
    ∀ seen, (newOnes now seen ps).Nodup := by
  induction ps with
  | nil => intro seen; simp [newOnes]
  | cons p rest ih =>
      intro seen
      rw [newOnes_cons]
      by_cases h1 : extract_product_key p = ""
      · rw [if_pos h1]; exact ih seen
      · rw [if_neg h1]
        by_cases h2 : (lookup seen (extract_product_key p)).isSome
        · rw [if_pos h2]; exact ih seen
        · rw [if_neg h2]
          refine List.nodup_cons.mpr ⟨?_, ih _⟩
          intro hmem
          have hh := (newOnes_mem now rest _ _).mp hmem
          rw [lookup_setk_self] at hh
          exact Option.noConfusion hh.2.1

/-! ### Second-loop characterization -/

/-- The per-entry update the second loop applies to an `Info` record. -/
def entryUpdate (now : Nat) (codes : List String) (k : String) (info : Info) : Info :=
  if codes.contains k then { info with last_seen := now }
  else if info.missing_since.isSome then info
  else { info with missing_since := some now }

theorem secondLoop_seen (now : Nat) (codes : List String) (l : AList Info) :
    ∀ ra k, lookup (secondLoop now codes l ra).1 k =
      (lookup l k).map (entryUpdate now codes k) := by
  induction l with
  | nil => intro ra k; simp [secondLoop, lookup]
  | cons e rest ih =>
      obtain ⟨k', info⟩ := e
      intro ra k
      by_cases hc : codes.contains k'
      · have hc' : k' ∈ codes := (contains_iff_mem _ _).mp hc
        simp only [secondLoop, hc, if_pos, ite_true]
        by_cases hk : k' = k
        · subst hk
          simp [lookup, entryUpdate, hc, hc']
        · simp [lookup, hk, ih]
      · have hc' : k' ∉ codes := fun hmm => hc ((contains_iff_mem _ _).mpr hmm)
        simp only [secondLoop, hc, ite_false, Bool.false_eq_true]
        by_cases hk : k' = k
        · subst hk
          simp [lookup, entryUpdate, hc, hc']
        · simp [lookup, hk, ih]

theorem secondLoop_flag (now : Nat) (codes : List String) (l : AList Info) :
    ∀ ra k, getFlag (secondLoop now codes l ra).2 k =
      (getFlag ra k ||
        (codes.contains k &&
          l.any (fun e => e.1 == k && e.2.missing_since.isSome))) := by
  induction l with
  | nil => intro ra k; simp [secondLoop]
  | cons e rest ih =>
      obtain ⟨k', info⟩ := e
      intro ra k
      by_cases hc : codes.contains k'
      · have hc' : k' ∈ codes := (contains_iff_mem _ _).mp hc
        simp only [secondLoop, hc, ite_true]
        rw [ih]
        by_cases hk : k' = k
        · subst hk
          by_cases hm : info.missing_since.isSome
          · by_cases hf : getFlag ra k'
            · simp [hm, hf, hc, hc']
            · simp only [hm, hf, Bool.not_false, Bool.and_true, Bool.true_and, ite_true,
                Bool.false_or]
              rw [getFlag_setk_true]
              simp [hc, hc', hm]
          · simp [hm, hc, hc']
        · have hbeq : (k' == k) = false := by
            simp [hk]
          have hbeq2 : (k == k') = false := by
            simp [Ne.symm hk]
          by_cases hm : info.missing_since.isSome <;>
            by_cases hf : getFlag ra k' <;>
              simp [hm, hf, hbeq, hbeq2, getFlag_setk_true, hk, Ne.symm hk]
      · have hc' : k' ∉ codes := fun hmm => hc ((contains_iff_mem _ _).mpr hmm)
        simp only [secondLoop, hc, ite_false, Bool.false_eq_true]
        rw [ih]
        by_cases hk : k' = k
        · subst hk
          simp [hc, hc']
        · have hbeq : (k' == k) = false := by simp [hk]
          simp [hbeq]

/-! ### Cycle-level lemmas -/

theorem mem_snapshotKeys (ps : List Product) (k : String) :
    k ∈ snapshotKeys ps ↔ k ≠ "" ∧ k ∈ ps.map extract_product_key := by
  simp [snapshotKeys, List.mem_filter, and_comm]

theorem cycle_events (now : Nat) (ps : List Product) (t : Int) (st : State) :
    (cycle now ps t st).2 =
      (totalCheck t st.last_total_results).1 ++
        (newOnes now st.seen_products ps).map Event.newItem := by
  simp [cycle, firstLoop_events]

theorem cycle_last (now : Nat) (ps : List Product) (t : Int) (st : State) :
    (cycle now ps t st).1.last_total_results =
      (if st.last_total_results < t then t else st.last_total_results) := by
  simp only [cycle, totalCheck, gt_iff_lt]
  by_cases h : st.last_total_results < t <;> simp [h]

theorem firstLoop_contains_iff (now : Nat) (ps : List Product) (seen : AList Info)
    (k : String) :
    (firstLoop now ps [] seen []).1.contains k = true ↔
      k ≠ "" ∧ k ∈ ps.map extract_product_key := by
  rw [contains_iff_mem, firstLoop_codes]
  constructor
  · rintro (h | h)
    · exact absurd h (List.not_mem_nil _)
    · exact h
  · exact Or.inr

theorem cycle_seen_present (now : Nat) (ps : List Product) (t : Int) (st : State)
    (k : String) (i : Info) (hs : lookup st.seen_products k = some i)
    (hk : k ∈ snapshotKeys ps) :
    lookup (cycle now ps t st).1.seen_products k =
      some { i with last_seen := now } := by
  obtain ⟨hk1, hk2⟩ := (mem_snapshotKeys ps k).mp hk
  show lookup (secondLoop now _ _ _).1 k = _
  rw [secondLoop_seen, firstLoop_seen_preserved now ps [] st.seen_products [] k i hs]
  simp only [Option.map_some']
  rw [entryUpdate, if_pos ((firstLoop_contains_iff now ps st.seen_products k).mpr ⟨hk1, hk2⟩)]

theorem cycle_seen_new (now : Nat) (ps : List Product) (t : Int) (st : State)
    (k : String) (hs : lookup st.seen_products k = none)
    (hk : k ∈ snapshotKeys ps) :
    lookup (cycle now ps t st).1.seen_products k =
      some { first_seen := now, last_seen := now, missing_since := none } := by
  obtain ⟨hk1, hk2⟩ := (mem_snapshotKeys ps k).mp hk
  show lookup (secondLoop now _ _ _).1 k = _
  rw [secondLoop_seen, firstLoop_seen_new now ps [] st.seen_products [] k hs,
    if_pos ⟨hk1, hk2⟩]
  simp only [Option.map_some']
  rw [entryUpdate, if_pos ((firstLoop_contains_iff now ps st.seen_products k).mpr ⟨hk1, hk2⟩)]

theorem cycle_seen_isSome (now : Nat) (ps : List Product) (t : Int) (st : State)
    (k : String) :
    (lookup (cycle now ps t st).1.seen_products k).isSome = true ↔
      ((lookup st.seen_products k).isSome = true ∨
        (k ≠ "" ∧ k ∈ ps.map extract_product_key)) := by
  show (lookup (secondLoop now _ _ _).1 k).isSome = true ↔ _
  cases hs : lookup st.seen_products k with
  | some i =>
      rw [secondLoop_seen, firstLoop_seen_preserved now ps [] st.seen_products [] k i hs]
      simp
  | none =>
      rw [secondLoop_seen, firstLoop_seen_new now ps [] st.seen_products [] k hs]
      by_cases h : k ≠ "" ∧ k ∈ ps.map extract_product_key
      · rw [if_pos h]
        simp [h]
      · rw [if_neg h]
        constructor
        · intro hcontra
          simp at hcontra
        · rintro (hcontra | hcond)
          · simp at hcontra
          · exact absurd hcond h

theorem cycle_flag_monotone (now : Nat) (ps : List Product) (t : Int) (st : State)
    (k : String) (h : getFlag st.restock_alerted k = true) :
    getFlag (cycle now ps t st).1.restock_alerted k = true := by
  show getFlag (secondLoop now _ _ _).2 k = true
  rw [secondLoop_flag, h]
  rfl

theorem cycle_no_restock (now : Nat) (ps : List Product) (t : Int) (st : State)
    (k : String) :
    (cycle now ps t st).2.count (Event.restock k) = 0 := by
  rw [cycle_events, List.count_append]
  have h1 : (totalCheck t st.last_total_results).1.count (Event.restock k) = 0 := by
    rw [totalCheck]
    by_cases h : t > st.last_total_results
    · rw [if_pos h]
      simp [List.count_cons]
    · rw [if_neg h]
      rfl
  have h2 : (List.map Event.newItem (newOnes now st.seen_products ps)).count
      (Event.restock k) = 0 := by
    rw [List.count_eq_zero]
    intro hmem
    obtain ⟨a, _, ha⟩ := List.mem_map.mp hmem
    exact Event.noConfusion ha
  rw [h1, h2]

/-! ### Run-level lemmas -/

theorem run_flag_monotone (ins : List CycleInput) :
    ∀ st k, getFlag st.restock_alerted k = true →
      getFlag (run st ins).1.restock_alerted k = true := by
  induction ins with
  | nil => intro st k h; exact h
  | cons c rest ih =>
      intro st k h
      match c with
      | (now, none) => exact ih st k h
      | (now, some (ps, t)) => exact ih _ k (cycle_flag_monotone now ps t st k h)

theorem run_no_restock (ins : List CycleInput) :
    ∀ st k, (run st ins).2.count (Event.restock k) = 0 := by
  induction ins with
  | nil => intro st k; rfl
  | cons c rest ih =>
      intro st k
      match c with
      | (now, none) =>
          show (([] : List Event) ++ (run st rest).2).count _ = 0
          rw [List.nil_append]
          exact ih st k
      | (now, some (ps, t)) =>
          show ((cycle now ps t st).2 ++ (run (cycle now ps t st).1 rest).2).count _ = 0
          rw [List.count_append, cycle_no_restock, ih]

theorem run_total_monotone (ins : List CycleInput) :
    ∀ st, st.last_total_results ≤ (run st ins).1.last_total_results := by
  induction ins with
  | nil => intro st; exact le_refl _
  | cons c rest ih =>
      intro st
      match c with
      | (now, none) => exact ih st
      | (now, some (ps, t)) =>
          refine le_trans ?_ (ih (cycle now ps t st).1)
          rw [cycle_last]
          by_cases h : st.last_total_results < t
          · rw [if_pos h]; exact le_of_lt h
          · rw [if_neg h]

theorem observed_cons_none (k : String) (now : Nat) (rest : List CycleInput) :
    observed k ((now, none) :: rest) = observed k rest := rfl

theorem observed_cons_some (k : String) (now : Nat) (ps : List Product) (t : Int)
    (rest : List CycleInput) :
    observed k ((now, some (ps, t)) :: rest) = true ↔
      ((k ≠ "" ∧ k ∈ ps.map extract_product_key) ∨ observed k rest = true) := by
  show ((!(k == "") && (ps.map extract_product_key).contains k) || observed k rest) = true ↔ _
  rw [Bool.or_eq_true, Bool.and_eq_true, contains_iff_mem]
  constructor
  · rintro (⟨h1, h2⟩ | h)
    · exact Or.inl ⟨by simpa using h1, h2⟩
    · exact Or.inr h
  · rintro (⟨h1, h2⟩ | h)
    · exact Or.inl ⟨by simpa using h1, h2⟩
    · exact Or.inr h

theorem run_seen_isSome (ins : List CycleInput) :
    ∀ st k, (lookup (run st ins).1.seen_products k).isSome = true ↔
      ((lookup st.seen_products k).isSome = true ∨ observed k ins = true) := by
  induction ins with
  | nil =>
      intro st k
      simp [run, observed]
  | cons c rest ih =>
      intro st k
      match c with
      | (now, none) =>
          show (lookup (run st rest).1.seen_products k).isSome = true ↔ _
          rw [ih, observed_cons_none]
      | (now, some (ps, t)) =>
          show (lookup (run (cycle now ps t st).1 rest).1.seen_products k).isSome = true ↔ _
          rw [ih, cycle_seen_isSome, observed_cons_some]
          tauto

/-! ### Event filter helpers -/

theorem filter_isTotal_map_newItem (l : List String) :
    (l.map Event.newItem).filter isTotal = [] := by
  rw [List.filter_eq_nil_iff]
  intro a ha
  obtain ⟨b, _, hb⟩ := List.mem_map.mp ha
  rw [← hb]
  simp [isNew, isTotal]

theorem filter_isNew_map_newItem (l : List String) :
    (l.map Event.newItem).filter isNew = l.map Event.newItem := by
  rw [List.filter_eq_self]
  intro a ha
  obtain ⟨b, _, hb⟩ := List.mem_map.mp ha
  rw [← hb]
  rfl

/-! ### Pagination lemmas -/

/-- The products of the `n` pages `p, p+1, ..., p+n-1`, in page order (a
failed page contributes nothing). -/
def pagesConcat (f : Nat → Option Page) : Nat → Nat → List Product
  | _, 0 => []
  | p, n + 1 =>
      (match f p with
       | some d => d.products
       | none => []) ++ pagesConcat f (p + 1) n

theorem fetchPagesFrom_stop (f : Nat → Option Page) :
    ∀ n p j, p ≤ j → j < p + n → f j = none →
      (∀ i, p ≤ i → i < j → (f i).isSome = true) →
      fetchPagesFrom f p n = pagesConcat f p (j - p) := by
  intro n
  induction n with
  | zero =>
      intro p j h1 h2 _ _
      omega
  | succ n ih =>
      intro p j h1 h2 hfail hok
      by_cases hpj : p = j
      · subst hpj
        rw [Nat.sub_self]
        show fetchPagesFrom f p (n + 1) = pagesConcat f p 0
        simp [fetchPagesFrom, pagesConcat, hfail]
      · have hplt : p < j := lt_of_le_of_ne h1 hpj
        have hsome := hok p (le_refl p) hplt
        obtain ⟨d, hd⟩ := Option.isSome_iff_exists.mp hsome
        have hjp : j - p = (j - (p + 1)) + 1 := by omega
        rw [hjp]
        show fetchPagesFrom f p (n + 1) = pagesConcat f p ((j - (p + 1)) + 1)
        simp only [fetchPagesFrom, pagesConcat, hd]
        rw [ih (p + 1) j hplt (by omega) hfail (fun i hi1 hi2 => hok i (by omega) hi2)]

/-! ### Claim theorems -/

/-- Prior state for the restock scenario: item "A" tracked with
`missing_since` set and no restock flag. -/
def stRestock : State :=
  { seen_products := [("A", { first_seen := 0, last_seen := 0, missing_since := some 0 })],
    restock_alerted := [],
    last_total_results := 5 }

/-- C1: at the claim's own scenario (item "A" has `missing_since` set,
`restock_alerted` false, snapshot contains "A"), the cycle dispatches no
notification at all — in particular no Restock event — even though it does
set `restock_alerted` to true and leaves `missing_since` set.  This
contradicts the claim, which demands exactly one dispatched Restock event. -/
theorem restock_not_dispatched :
    (cycle 1 [{ code := "A" }] 5 stRestock).2 = [] ∧
    (cycle 1 [{ code := "A" }] 5 stRestock).2.count (Event.restock "A") = 0 ∧
    getFlag (cycle 1 [{ code := "A" }] 5 stRestock).1.restock_alerted "A" = true := by
  exact ⟨rfl, rfl, rfl⟩

/-- Prior state for the missing-since scenario: item "B" tracked with
`missing_since = 0` and the restock flag already true. -/
def stMissing : State :=
  { seen_products := [("B", { first_seen := 0, last_seen := 0, missing_since := some 0 })],
    restock_alerted := [("B", true)],
    last_total_results := 0 }

/-- C2 counterexample: item "B" has `missing_since` set and reappears in the
snapshot, yet after the cycle its entry still has `missing_since = some 0` —
the claim says `missing_since` is absent in the next state. -/
theorem missing_since_not_cleared_cex :
    lookup (cycle 2 [{ code := "B" }] 0 stMissing).1.seen_products "B" =
      some { first_seen := 0, last_seen := 2, missing_since := some 0 } ∧
    (lookup (cycle 2 [{ code := "B" }] 0 stMissing).1.seen_products "B").map
      Info.missing_since ≠ some none := by
  exact ⟨rfl, by decide⟩

/-- C2 amended: for every identity present in both the prior state and the
current snapshot whose prior entry has `missing_since` set, the cycle keeps
`missing_since` unchanged (still set in the next state) and only updates
`last_seen` to `now`, regardless of `restock_alerted`. -/
theorem missing_since_retained (now : Nat) (ps : List Product) (t : Int)
    (st : State) (k : String) (i : Info) (m : Nat)
    (hs : lookup st.seen_products k = some i) (hm : i.missing_since = some m)
    (hk : k ∈ snapshotKeys ps) :
    lookup (cycle now ps t st).1.seen_products k =
      some { first_seen := i.first_seen, last_seen := now, missing_since := some m } := by
  rw [cycle_seen_present now ps t st k i hs hk, ← hm]

/-- Witness for `missing_since_retained` at the concrete scenario state. -/
theorem missing_since_retained_witness :
    lookup (cycle 2 [{ code := "B" }] 0 stMissing).1.seen_products "B" =
      some { first_seen := 0, last_seen := 2, missing_since := some 0 } :=
  missing_since_retained 2 [{ code := "B" }] 0 stMissing "B"
    { first_seen := 0, last_seen := 0, missing_since := some 0 } 0 rfl rfl (by decide)

/-- Prior state with a stored total of 5. -/
def stTotal5 : State :=
  { seen_products := [], restock_alerted := [], last_total_results := 5 }

/-- C3 counterexample: with stored total 5 and fetched total 3, the cycle
emits no event but keeps the stored total at 5 — the claim says the stored
total becomes the snapshot total 3 (downward update). -/
theorem total_downdate_cex :
    (cycle 1 [] 3 stTotal5).1.last_total_results = 5 ∧
    (cycle 1 [] 3 stTotal5).2 = [] ∧
    (5 : Int) ≠ 3 := by
  exact ⟨rfl, rfl, by decide⟩

/-- C3 amended: in every cycle whose fetched total is equal to or lower than
the stored `last_total_results`, no total event is emitted and the stored
`last_total_results` is left unchanged (it is never updated downward). -/
theorem total_not_updated_on_le (now : Nat) (ps : List Product) (t : Int)
    (st : State) (h : t ≤ st.last_total_results) :
    (cycle now ps t st).2.filter isTotal = [] ∧
    (cycle now ps t st).1.last_total_results = st.last_total_results := by
  constructor
  · rw [cycle_events, List.filter_append, filter_isTotal_map_newItem, List.append_nil]
    rw [totalCheck, if_neg (not_lt.mpr h)]
    rfl
  · rw [cycle_last, if_neg (not_lt.mpr h)]

/-- Witness for `total_not_updated_on_le`: stored total 5, fetched total 3. -/
theorem total_not_updated_on_le_witness :
    (cycle 1 [] 3 stTotal5).2.filter isTotal = [] ∧
    (cycle 1 [] 3 stTotal5).1.last_total_results = stTotal5.last_total_results :=
  total_not_updated_on_le 1 [] 3 stTotal5 (by decide)

/-- C4: a `TotalIncreased` (stock-update) notification is emitted iff the
fetched total strictly exceeds the stored `last_total_results`; when
emitted it is the single summary event carrying the new total and the delta
`new_total - prior_total`, and that delta is strictly positive. -/
theorem total_event_iff (now : Nat) (ps : List Product) (t : Int) (st : State) :
    ((cycle now ps t st).2.filter isTotal =
      if st.last_total_results < t then
        [Event.summary t (t - st.last_total_results)]
      else []) ∧
    (st.last_total_results < t → 0 < t - st.last_total_results) := by
  constructor
  · rw [cycle_events, List.filter_append, filter_isTotal_map_newItem, List.append_nil]
    rw [totalCheck]
    by_cases h : st.last_total_results < t
    · rw [if_pos h, if_pos h]
      rfl
    · rw [if_neg h, if_neg h]
      rfl
  · intro h
    omega

/-- Witness for `total_event_iff` at stored total 5, fetched total 9. -/
theorem total_event_iff_witness :
    ((cycle 1 [] 9 stTotal5).2.filter isTotal =
      if stTotal5.last_total_results < 9 then
        [Event.summary 9 (9 - stTotal5.last_total_results)]
      else []) ∧
    (stTotal5.last_total_results < 9 → 0 < 9 - stTotal5.last_total_results) :=
  total_event_iff 1 [] 9 stTotal5

/-- C5: every identity of the snapshot (non-empty key) that is not yet in
the tracked-item map yields exactly one NewItem event; the NewItem events
are exactly the map of `newOnes` (the snapshot-order traversal of new
identities); and afterwards the identity is tracked with
`first_seen = last_seen = now` and no `missing_since`. -/
theorem newitem_complete (now : Nat) (ps : List Product) (t : Int) (st : State)
    (k : String) (hk : k ∈ snapshotKeys ps)
    (hnew : lookup st.seen_products k = none) :
    (cycle now ps t st).2.count (Event.newItem k) = 1 ∧
    (cycle now ps t st).2.filter isNew =
      (newOnes now st.seen_products ps).map Event.newItem ∧
    lookup (cycle now ps t st).1.seen_products k =
      some { first_seen := now, last_seen := now, missing_since := none } := by
  obtain ⟨hk1, hk2⟩ := (mem_snapshotKeys ps k).mp hk
  refine ⟨?_, ?_, cycle_seen_new now ps t st k hnew hk⟩
  · rw [cycle_events, List.count_append]
    have h1 : (totalCheck t st.last_total_results).1.count (Event.newItem k) = 0 := by
      rw [totalCheck]
      by_cases h : t > st.last_total_results
      · rw [if_pos h]
        rw [List.count_eq_zero]
        simp
      · rw [if_neg h]
        rfl
    have hinj : Function.Injective Event.newItem := by
      intro a b hab
      exact Event.newItem.inj hab
    rw [h1, List.count_map_of_injective _ _ hinj, Nat.zero_add]
    exact List.count_eq_one_of_mem (newOnes_nodup now ps st.seen_products)
      ((newOnes_mem now ps st.seen_products k).mpr ⟨hk1, hnew, hk2⟩)
  · rw [cycle_events, List.filter_append, filter_isNew_map_newItem]
    have h1 : (totalCheck t st.last_total_results).1.filter isNew = [] := by
      rw [totalCheck]
      by_cases h : t > st.last_total_results
      · rw [if_pos h]
        rfl
      · rw [if_neg h]
        rfl
    rw [h1, List.nil_append]

/-- Witness for `newitem_complete`: first sighting of "A" from the initial
state. -/
theorem newitem_complete_witness :
    "A" ∈ snapshotKeys [{ code := "A" }] ∧
    lookup initState.seen_products "A" = none ∧
    ((cycle 7 [{ code := "A" }] 4 initState).2.count (Event.newItem "A") = 1 ∧
      (cycle 7 [{ code := "A" }] 4 initState).2.filter isNew =
        (newOnes 7 initState.seen_products [{ code := "A" }]).map Event.newItem ∧
      lookup (cycle 7 [{ code := "A" }] 4 initState).1.seen_products "A" =
        some { first_seen := 7, last_seen := 7, missing_since := none }) :=
  ⟨by decide, rfl, newitem_complete 7 [{ code := "A" }] 4 initState "A" (by decide) rfl⟩

/-- C6: across any run of the poll loop, at most one Restock event is ever
dispatched for a given identity (indeed the source dispatches none), and the
`restock_alerted` flag is never reset once true. -/
theorem restock_at_most_once (st : State) (ins : List CycleInput) (k : String) :
    (run st ins).2.count (Event.restock k) ≤ 1 ∧
    (getFlag st.restock_alerted k = true →
      getFlag (run st ins).1.restock_alerted k = true) := by
  refine ⟨?_, run_flag_monotone ins st k⟩
  rw [run_no_restock]
  exact Nat.zero_le 1

/-- State with the restock flag already true for "A". -/
def stFlagged : State :=
  { seen_products := [("A", { first_seen := 0, last_seen := 0, missing_since := some 0 })],
    restock_alerted := [("A", true)],
    last_total_results := 0 }

/-- Witness for `restock_at_most_once` on a two-tick run from a flagged
state. -/
theorem restock_at_most_once_witness :
    (run stFlagged [(1, some ([{ code := "A" }], 1)), (2, none)]).2.count
      (Event.restock "A") ≤ 1 ∧
    (getFlag stFlagged.restock_alerted "A" = true →
      getFlag (run stFlagged [(1, some ([{ code := "A" }], 1)), (2, none)]).1.restock_alerted
        "A" = true) :=
  restock_at_most_once stFlagged [(1, some ([{ code := "A" }], 1)), (2, none)] "A"

/-- C7: starting from the fresh state, an identity is tracked after a run
iff some successful tick's snapshot contained it with a non-empty key; and
no cycle ever removes a tracked entry. -/
theorem tracked_iff_observed (ins : List CycleInput) (k : String) :
    ((lookup (run initState ins).1.seen_products k).isSome = true ↔
      observed k ins = true) ∧
    (∀ (now : Nat) (fetch : Option (List Product × Int)) (st : State),
      (lookup st.seen_products k).isSome = true →
      (lookup (pollStep now fetch st).1.seen_products k).isSome = true) := by
  constructor
  · rw [run_seen_isSome]
    show ((lookup [] k).isSome = true ∨ _) ↔ _
    rw [show lookup ([] : AList Info) k = none from rfl]
    simp
  · intro now fetch st h
    match fetch with
    | none => exact h
    | some (ps, t) =>
        show (lookup (cycle now ps t st).1.seen_products k).isSome = true
        rw [cycle_seen_isSome]
        exact Or.inl h

/-- Witness for `tracked_iff_observed` on a two-tick run observing "A". -/
theorem tracked_iff_observed_witness :
    ((lookup (run initState [(1, none), (2, some ([{ code := "A" }], 1))]).1.seen_products
      "A").isSome = true ↔
      observed "A" [(1, none), (2, some ([{ code := "A" }], 1))] = true) ∧
    (∀ (now : Nat) (fetch : Option (List Product × Int)) (st : State),
      (lookup st.seen_products "A").isSome = true →
      (lookup (pollStep now fetch st).1.seen_products "A").isSome = true) :=
  tracked_iff_observed [(1, none), (2, some ([{ code := "A" }], 1))] "A"

/-- C8: a failed fetch leaves the in-memory state exactly unchanged,
dispatches no notification, does not reach `save_state`, and the loop simply
continues with the remaining ticks as if the failed tick had not happened. -/
theorem fetch_failure_skips (now : Nat) (st : State) (ins : List CycleInput) :
    pollStep now none st = (st, [], false) ∧
    run st ((now, none) :: ins) = run st ins := by
  exact ⟨rfl, rfl⟩

/-- C9 counterexample: page 0 succeeds declaring 3 pages, page 1 fails,
page 2 would succeed; the fetch does not fail — it returns a partial
snapshot containing only page 0's product (page 2's product "C" is absent),
while the claim says any page failure fails the whole fetch. -/
theorem partial_fetch_cex :
    (fun n => if n = 0 then
        some { products := [{ code := "A" }], totalResults := 10, totalPages := 3 }
      else if n = 2 then
        some { products := [{ code := "C" }], totalResults := 10, totalPages := 3 }
      else none : Nat → Option Page) 1 = none ∧
    fetch_all_products (fun n => if n = 0 then
        some { products := [{ code := "A" }], totalResults := 10, totalPages := 3 }
      else if n = 2 then
        some { products := [{ code := "C" }], totalResults := 10, totalPages := 3 }
      else none) = some ([{ code := "A" }], 10) := by
  exact ⟨rfl, rfl⟩

/-- C9 amended: only a failure of page 0 fails the fetch as a whole.  If a
later page `j` (with `1 ≤ j < totalPages`) is the first to fail, the fetcher
stops there and returns a partial snapshot: the products of pages
`0 .. j-1` merged in page order, with the total taken from page 0. -/
theorem fetch_partial_on_page_failure (f : Nat → Option Page) (pg0 : Page)
    (j : Nat) (h0 : f 0 = some pg0) (hj1 : 1 ≤ j) (hj2 : j < pg0.totalPages)
    (hfail : f j = none) (hok : ∀ i, 1 ≤ i → i < j → (f i).isSome = true) :
    fetch_all_products f =
      some (pg0.products ++ pagesConcat f 1 (j - 1), pg0.totalResults) := by
  show (match f 0 with
    | none => none
    | some first =>
        some (first.products ++ fetchPagesFrom f 1 (first.totalPages - 1),
          first.totalResults)) = _
  rw [h0]
  show some (pg0.products ++ fetchPagesFrom f 1 (pg0.totalPages - 1), pg0.totalResults) = _
  rw [fetchPagesFrom_stop f (pg0.totalPages - 1) 1 j hj1 (by omega) hfail hok]

/-- Witness for `fetch_partial_on_page_failure` at the concrete two-page
fetcher whose page 1 fails. -/
theorem fetch_partial_on_page_failure_witness :
    fetch_all_products (fun n => if n = 0 then
        some { products := [{ code := "A" }], totalResults := 10, totalPages := 3 }
      else if n = 2 then
        some { products := [{ code := "C" }], totalResults := 10, totalPages := 3 }
      else none) =
      some (Page.products { products := [{ code := "A" }], totalResults := 10, totalPages := 3 } ++
        pagesConcat (fun n => if n = 0 then
          some { products := [{ code := "A" }], totalResults := 10, totalPages := 3 }
        else if n = 2 then
          some { products := [{ code := "C" }], totalResults := 10, totalPages := 3 }
        else none) 1 (1 - 1),
        Page.totalResults { products := [{ code := "A" }], totalResults := 10, totalPages := 3 }) :=
  fetch_partial_on_page_failure _ _ 1 rfl (by decide) (by decide) rfl
    (fun i hi1 hi2 => absurd (lt_of_le_of_lt hi1 hi2) (lt_irrefl 1))

/-- C10: the stored `last_total_results` is monotonically non-decreasing
across any run, and a cycle whose fetched total does not strictly exceed the
stored value leaves the stored value unchanged. -/
theorem total_monotone (st : State) (ins : List CycleInput) (now : Nat)
    (ps : List Product) (t : Int) (h : t ≤ st.last_total_results) :
    st.last_total_results ≤ (run st ins).1.last_total_results ∧
    (cycle now ps t st).1.last_total_results = st.last_total_results := by
  refine ⟨run_total_monotone ins st, ?_⟩
  rw [cycle_last, if_neg (not_lt.mpr h)]

/-- Witness for `total_monotone`: stored total 5, fetched total 2, one later
tick fetching total 9. -/
theorem total_monotone_witness :
    stTotal5.last_total_results ≤
      (run stTotal5 [(1, some ([], 9))]).1.last_total_results ∧
    (cycle 0 [] 2 stTotal5).1.last_total_results = stTotal5.last_total_results :=
  total_monotone stTotal5 [(1, some ([], 9))] 0 [] 2 (by decide)

end Sheinverse
